import Mathlib

set_option maxRecDepth 4000

/-!
Verification of the mini-bash command interpreter (src/mini_bash.c).

The C program is byte-oriented; we model a byte as a `Char` and a C string
as a `String` or `List Char` (all strings the program manipulates are
treated as sequences of bytes, one `Char` per byte).
-/

namespace MiniBash

/-- The macro `INITIAL_BUF` (256). -/
def INITIAL_BUF : Nat := 256

/-- The macro `MAX_ARGS` (128). -/
def MAX_ARGS : Nat := 128

/-- The macro `PATH_BUF` (4096). -/
def PATH_BUF : Nat := 4096

/-- The separator test used throughout `mini_bash.c`: space, tab,
carriage-return or newline. -/
def isWs (c : Char) : Bool :=
  c = ' ' || c = '\t' || c = '\r' || c = '\n'

/-- Embedding of `starts_empty_or_ws` (lines 59-65): returns true iff the line contains
only whitespace characters. -/
def starts_empty_or_ws (s : List Char) : Bool :=
  s.all isWs

/-- The token-collecting loop of `parse_line` (lines 113-132).  The first
argument is the remaining slot budget (`max_args - 1 - argc`); the list is
the remaining input, which on every call starts at a non-separator
character or is empty. -/
def parseLoop : Nat → List Char → List (List Char)
  | 0, _ => []
  | _, [] => []
  | Nat.succ k, l@(_ :: _) =>
    let tok := l.takeWhile (fun c => !isWs c)
    match l.dropWhile (fun c => !isWs c) with
    | [] => [tok]
    | _ :: r => tok :: parseLoop k (r.dropWhile isWs)

/-- Embedding of `parse_line` (lines 106-136): skip leading whitespace, then collect up
to `max_args - 1` whitespace-delimited tokens. -/
def parse_line (line : List Char) (max_args : Nat) : List (List Char) :=
  parseLoop (max_args - 1) (line.dropWhile isWs)

/-- The ordered sequence of maximal runs of non-whitespace characters of a
line, as described by the specification of the tokenizer (this is the
specification-side definition that `parse_line` is compared against). -/
def wordsOf : List Char → List (List Char)
  | [] => []
  | c :: rest =>
    if isWs c then wordsOf rest
    else (c :: rest.takeWhile (fun x => !isWs x)) :: wordsOf (rest.dropWhile (fun x => !isWs x))
termination_by l => l.length
decreasing_by
  · simp
  · exact Nat.lt_succ_of_le (List.Sublist.length_le (List.dropWhile_sublist _))

/-- The digit-collecting loop of `write_int` (lines 47-50): least
significant digit first, at most 32 digits (the size of `buf`). -/
def digitsRevFuel : Nat → Nat → List Char
  | _, 0 => []
  | x, Nat.succ k =>
    if x = 0 then [] else Char.ofNat (48 + x % 10) :: digitsRevFuel (x / 10) k

/-- Embedding of `write_int` (lines 28-56): decimal rendering of a C `int`, with the
special case for `INT_MIN`.  The characters the function writes are
collected into a string. -/
def write_int (x : Int) : String :=
  if x = 0 then "0"
  else if x < 0 then
    if x = -2147483648 then "-" ++ "2147483648"
    else "-" ++ ((digitsRevFuel (-x).toNat 32).reverse).asString
  else ((digitsRevFuel x.toNat 32).reverse).asString

/-- The classification of a child's wait status, the `TerminationOutcome`
of the specification.  The three constructors correspond to the three
branches of `report_status` (`WIFEXITED`, `WIFSIGNALED`, neither). -/
inductive TerminationOutcome where
  | exitedNormally (code : Nat)
  | killedBySignal (sig : Nat)
  | unknown
deriving DecidableEq

/-- Embedding of `report_status` (lines 195-209): the message written to standard
output for a completed child, one per branch. -/
def report_status : TerminationOutcome → String
  | .exitedNormally code =>
    "Command executed successfully. Return code: " ++ write_int (Int.ofNat code) ++ "\n"
  | .killedBySignal sig =>
    "Command terminated by signal: " ++ write_int (Int.ofNat sig) ++ "\n"
  | .unknown => "Command finished. (unknown status)\n"

/-- Embedding of `build_path` (lines 146-157): `dir + "/" + cmd` if it fits in a buffer
of `out_sz` bytes together with the terminating NUL, otherwise failure. -/
def build_path (out_sz : Nat) (dir cmd : String) : Option String :=
  if dir.length + 1 + cmd.length + 1 > out_sz then none
  else some (dir ++ "/" ++ cmd)

/-- The process environment and operating-system behaviour that
`mini_bash.c` consults, abstracted as explicit inputs:
`home` is `getenv("HOME")` (`none` when unset), `isExec` is
`access(path, X_OK) == 0`, `chdirRes` is the outcome of `chdir(2)`
(`some` of the resulting working directory on success, `none` on failure;
POSIX mandates that `chdir("")` fails with `ENOENT`), `forkOk` tells
whether `fork` succeeds and `waitRes` is the outcome of `waitpid`
(`none` = the call itself failed). -/
structure Env where
  home : Option String
  isExec : String → Bool
  chdirRes : String → Option String
  forkOk : Bool
  waitRes : Option TerminationOutcome
  chdirEmptyFails : chdirRes "" = none

/-- One candidate check of `find_executable`: the body of each
`if (build_path(out, sz, dir, cmd)) { if (access(out, X_OK) == 0) ... }`
block (lines 168-169 and 173-174). -/
def try_candidate (env : Env) (dir cmd : String) : Option String :=
  match build_path PATH_BUF dir cmd with
  | some p => if env.isExec p then some p else none
  | none => none

/-- Embedding of `find_executable` (lines 164-178): try `$HOME/<cmd>` when `HOME` is
set and non-empty, then `/bin/<cmd>`; a candidate is returned only when it
was built successfully and is executable. -/
def find_executable (env : Env) (cmd : String) : Option String :=
  let homeHit : Option String :=
    match env.home with
    | some h => if h ≠ "" then try_candidate env h cmd else none
    | none => none
  match homeHit with
  | some p => some p
  | none => try_candidate env "/bin" cmd

/-- Embedding of `print_unknown` (lines 184-188): the text written to standard error
for an unresolved command. -/
def print_unknown (cmd : String) : String :=
  "[" ++ cmd ++ "]: Unknown Command\n"

/-- One observable step of the interpreter: the prompt, a write to
standard output, a write to standard error, a `perror(op)` diagnostic on
standard error, or the creation of a child process running `path` with
argument vector `argv`. -/
inductive Action where
  | prompt
  | out (s : String)
  | err (s : String)
  | perror (op : String)
  | spawned (path : String) (argv : List String)
deriving DecidableEq

/-- Result of the `cd` built-in: its writes and the resulting working
directory of the shell process. -/
structure CdResult where
  acts : List Action
  cwd : String
deriving DecidableEq

/-- Embedding of `builtin_cd` (lines 260-274): target is `argv[1]` when `argc >= 2`,
otherwise `getenv("HOME")`; a missing target is diagnosed, otherwise
`chdir` is attempted and a failure diagnosed via `perror`. -/
def builtin_cd (env : Env) (cwd : String) (argv : List String) : CdResult :=
  let target : Option String :=
    match argv with
    | _ :: t :: _ => some t
    | _ => env.home
  match target with
  | none => ⟨[Action.err "cd: HOME not set\n"], cwd⟩
  | some t =>
    match env.chdirRes t with
    | some newCwd => ⟨[], newCwd⟩
    | none => ⟨[Action.perror "chdir"], cwd⟩

/-- Embedding of `execute_external` (lines 218-249): resolve the command; on failure
print the unknown-command message and create no child; otherwise fork
(diagnosing a failed fork), let the child run the program, wait for it
(diagnosing a failed wait) and report its status. -/
def execute_external (env : Env) (argv : List String) : List Action :=
  match argv with
  | [] => []
  | cmd :: _ =>
    match find_executable env cmd with
    | none => [Action.err (print_unknown cmd)]
    | some path =>
      if env.forkOk then
        Action.spawned path argv ::
          (match env.waitRes with
           | none => [Action.perror "waitpid"]
           | some st => [Action.out (report_status st)])
      else [Action.perror "fork"]

/-- One event delivered by the `read(STDIN_FILENO, &c, 1)` call inside
`read_line`: a byte, end-of-file (`read` returned 0), or a read error
(`read` returned a negative value). -/
inductive ByteEvent where
  | byte (c : Char)
  | eof
  | err
deriving DecidableEq

/-- Outcome of one allocator call (`malloc`/`realloc`): the head of the
list of allocator outcomes, `true` (success) when the list is empty. -/
def popAlloc : List Bool → Bool × List Bool
  | [] => (true, [])
  | b :: r => (b, r)

/-- Result of `read_line`: the line read (`none` models the function
returning -1), the capacity of the line buffer afterwards (0 = the buffer
is not allocated), and the unconsumed allocator outcomes and input. -/
structure ReadRes where
  line : Option (List Char)
  cap : Nat
  alloc : List Bool
  stdin : List ByteEvent
deriving DecidableEq

/-- The byte loop of `read_line` (lines 75-99): read one byte at a time,
growing the buffer (doubling `cap`) when `len + 2 > cap`; EOF ends the
line (failure when nothing was read), a read error or a failed `realloc`
fails the call.  An exhausted event list behaves like EOF. -/
def readLoop (acc : List Char) (len cap : Nat) (alloc : List Bool) :
    List ByteEvent → ReadRes
  | [] => if len = 0 then ⟨none, cap, alloc, []⟩ else ⟨some acc, cap, alloc, []⟩
  | ByteEvent.eof :: rest =>
    if len = 0 then ⟨none, cap, alloc, rest⟩ else ⟨some acc, cap, alloc, rest⟩
  | ByteEvent.err :: rest => ⟨none, cap, alloc, rest⟩
  | ByteEvent.byte c :: rest =>
    if len + 2 > cap then
      let p := popAlloc alloc
      if p.1 then
        if c = '\n' then ⟨some (acc ++ [c]), cap * 2, p.2, rest⟩
        else readLoop (acc ++ [c]) (len + 1) (cap * 2) p.2 rest
      else ⟨none, cap, p.2, rest⟩
    else
      if c = '\n' then ⟨some (acc ++ [c]), cap, alloc, rest⟩
      else readLoop (acc ++ [c]) (len + 1) cap alloc rest

/-- Embedding of `read_line` (lines 68-103): allocate the initial 256-byte buffer when
none is held (failure of that `malloc` fails the call, leaving the buffer
unallocated), then run the byte loop. -/
def read_line (cap : Nat) (alloc : List Bool) (stdin : List ByteEvent) : ReadRes :=
  if cap = 0 then
    let p := popAlloc alloc
    if p.1 then readLoop [] 0 INITIAL_BUF p.2 stdin
    else ⟨none, 0, p.2, stdin⟩
  else readLoop [] 0 cap alloc stdin

/-- The argument vector `main` builds from a line (line 300):
`parse_line` with `MAX_ARGS`, each token a string. -/
def tokensOf (l : List Char) : List String :=
  (parse_line l MAX_ARGS).map (fun t => t.asString)

/-- Result of a run of the interpreter: everything it wrote or spawned,
the final working directory, and the process exit code. -/
structure RunResult where
  acts : List Action
  cwd : String
  code : Nat
deriving DecidableEq

/-- The loop of `main` (lines 276-319) with the outcome of each
`read_line` call abstracted as an input event (`none` = `read_line`
returned -1, which covers end-of-input, a read error and allocation
failure); an exhausted event list also behaves like end-of-input.  Each
iteration prints the prompt, reads, skips blank lines, and dispatches to
`exit`, `cd` or `execute_external`; the interpreter always returns 0. -/
def mainRun (env : Env) (cwd : String) : List (Option (List Char)) → RunResult
  | [] => ⟨[Action.prompt, Action.out "\n"], cwd, 0⟩
  | none :: _ => ⟨[Action.prompt, Action.out "\n"], cwd, 0⟩
  | some line :: rest =>
    if starts_empty_or_ws line then
      let r := mainRun env cwd rest
      ⟨Action.prompt :: r.acts, r.cwd, r.code⟩
    else
      match tokensOf line with
      | [] =>
        let r := mainRun env cwd rest
        ⟨Action.prompt :: r.acts, r.cwd, r.code⟩
      | cmd :: args =>
        if cmd = "exit" then ⟨[Action.prompt], cwd, 0⟩
        else if cmd = "cd" then
          let c := builtin_cd env cwd (cmd :: args)
          let r := mainRun env c.cwd rest
          ⟨Action.prompt :: (c.acts ++ r.acts), r.cwd, r.code⟩
        else
          let acts := execute_external env (cmd :: args)
          let r := mainRun env cwd rest
          ⟨Action.prompt :: (acts ++ r.acts), r.cwd, r.code⟩

/-- The 4091-character command name used to examine the path-buffer
limit. -/
def bigCmd : String := ⟨List.replicate 4091 'a'⟩

/-- An environment with `HOME=/` on which every path is executable. -/
def envSlashHome : Env :=
  ⟨some "/", fun _ => true, fun _ => none, true, none, rfl⟩

/-- An environment with `HOME` unset and nothing executable. -/
def envNoHome : Env :=
  ⟨none, fun _ => false, fun _ => none, true, none, rfl⟩

/-- An environment with `HOME=/tmp` where `chdir` succeeds on every
non-empty path and the working directory becomes that path. -/
def envTmpHome : Env :=
  ⟨some "/tmp", fun _ => false, fun s => if s = "" then none else some s,
   true, none, rfl⟩

/-- An environment with `HOME` set to the empty string. -/
def envEmptyHome : Env :=
  ⟨some "", fun _ => false, fun _ => none, true, none, rfl⟩

/-- An environment with `HOME=/h` on which every path is executable. -/
def envSlashH : Env :=
  ⟨some "/h", fun _ => true, fun _ => none, true, none, rfl⟩

/-- A line of 128 one-letter words. -/
def line128 : List Char := (List.replicate 128 ['a', ' ']).flatten

theorem wordsOf_nil : wordsOf [] = [] := by simp [wordsOf]

theorem wordsOf_cons_ws {c : Char} (rest : List Char) (h : isWs c = true) :
    wordsOf (c :: rest) = wordsOf rest := by
  rw [wordsOf]; simp [h]

theorem wordsOf_cons_not_ws {c : Char} (rest : List Char) (h : isWs c = false) :
    wordsOf (c :: rest) =
      (c :: rest.takeWhile (fun x => !isWs x)) :: wordsOf (rest.dropWhile (fun x => !isWs x)) := by
  rw [wordsOf]; simp [h]

/-- The first element surviving `dropWhile p` falsifies `p`. -/
theorem dropWhile_head_false {p : Char → Bool} {l : List Char} {d : Char} {r : List Char}
    (h : l.dropWhile p = d :: r) : p d = false := by
  have hne : l.dropWhile p ≠ [] := by simp [h]
  have := List.head_dropWhile_not p l hne
  simpa [h] using this

/-- Core tokenizer lemma: the token loop started after the leading
whitespace of `l` produces exactly the first `k` maximal non-whitespace
runs of `l`. -/
theorem parseLoop_eq_take (l : List Char) : ∀ k : Nat,
    parseLoop k (l.dropWhile isWs) = (wordsOf l).take k := by
  induction l using wordsOf.induct with
  | case1 =>
    intro k
    cases k <;> simp [parseLoop, wordsOf_nil]
  | case2 c rest hc ih =>
    intro k
    rw [List.dropWhile_cons_of_pos hc, wordsOf_cons_ws rest hc]
    exact ih k
  | case3 c rest hc ih =>
    intro k
    have hc' : isWs c = false := Bool.of_not_eq_true hc
    rw [List.dropWhile_cons_of_neg hc, wordsOf_cons_not_ws rest hc']
    cases k with
    | zero => simp [parseLoop]
    | succ k =>
      have htok : (c :: rest).takeWhile (fun x => !isWs x) =
          c :: rest.takeWhile (fun x => !isWs x) := by
        rw [List.takeWhile_cons_of_pos]; simp [hc']
      have hdrop : (c :: rest).dropWhile (fun x => !isWs x) =
          rest.dropWhile (fun x => !isWs x) := by
        rw [List.dropWhile_cons_of_pos]; simp [hc']
      show parseLoop (k+1) (c :: rest) = _
      rw [parseLoop]
      simp only [htok, hdrop]
      cases hrest : rest.dropWhile (fun x => !isWs x) with
      | nil => simp [hrest, wordsOf_nil]
      | cons d r =>
        have hd : isWs d = true := by
          have := dropWhile_head_false hrest
          simpa using this
        have hws : wordsOf (d :: r) = wordsOf r := wordsOf_cons_ws r hd
        have := ih k
        rw [hrest] at this
        rw [List.dropWhile_cons_of_pos hd] at this
        simp only [List.take_succ_cons]
        rw [this, hws]

/-- The tokenizer keeps exactly the first `max_args - 1` maximal runs. -/
theorem parse_line_eq_take (l : List Char) (max_args : Nat) :
    parse_line l max_args = (wordsOf l).take (max_args - 1) :=
  parseLoop_eq_take l (max_args - 1)

/-- A whitespace-only line has no maximal non-whitespace run. -/
theorem wordsOf_eq_nil_of_all_ws (l : List Char) (h : l.all isWs = true) :
    wordsOf l = [] := by
  induction l with
  | nil => exact wordsOf_nil
  | cons c rest ih =>
    simp only [List.all_cons, Bool.and_eq_true] at h
    rw [wordsOf_cons_ws rest h.1]
    exact ih h.2

/-- A line with a token is not whitespace-only. -/
theorem not_all_ws_of_words_ne_nil (l : List Char) (h : wordsOf l ≠ []) :
    starts_empty_or_ws l = false := by
  by_contra hws
  have : starts_empty_or_ws l = true := by
    cases hx : starts_empty_or_ws l
    · exact absurd hx hws
    · rfl
  exact h (wordsOf_eq_nil_of_all_ws l this)

theorem digitsRevFuel_zero (k : Nat) : digitsRevFuel 0 k = [] := by
  cases k <;> simp [digitsRevFuel]

theorem digitChar_eq_ofNat (d : Nat) (h : d < 10) :
    Nat.digitChar d = Char.ofNat (48 + d) := by
  interval_cases d <;> rfl

/-- The digit loop of `write_int` agrees with the digit accumulator of the
standard decimal printer. -/
theorem toDigitsCore_eq_digitsRevFuel (k : Nat) :
    ∀ (n fuel : Nat) (ds : List Char), 0 < n → n < 10 ^ k → n < fuel →
      Nat.toDigitsCore 10 fuel n ds = (digitsRevFuel n k).reverse ++ ds := by
  induction k with
  | zero =>
    intro n fuel ds h1 h2 _
    simp at h2
    omega
  | succ k ih =>
    intro n fuel ds h1 h2 h3
    have hn : n ≠ 0 := Nat.pos_iff_ne_zero.mp h1
    match fuel, h3 with
    | fuel + 1, _ =>
      have hd : Nat.digitChar (n % 10) = Char.ofNat (48 + n % 10) :=
        digitChar_eq_ofNat (n % 10) (Nat.mod_lt n (by norm_num))
      by_cases hq : n / 10 = 0
      · rw [Nat.toDigitsCore]
        simp only [hq, if_pos rfl, reduceIte]
        rw [digitsRevFuel, if_neg hn, hq, digitsRevFuel_zero]
        simp [hd]
      · rw [Nat.toDigitsCore]
        simp only [hq, reduceIte]
        have hdiv10 : n / 10 < 10 ^ k := by
          apply (Nat.div_lt_iff_lt_mul (by norm_num : 0 < 10)).mpr
          calc n < 10 ^ (k + 1) := h2
            _ = 10 ^ k * 10 := by ring
        have hfuel : n / 10 < fuel := by
          have h4 : n / 10 < n := Nat.div_lt_self h1 (by norm_num)
          omega
        rw [ih (n / 10) fuel (Nat.digitChar (n % 10) :: ds) (Nat.pos_of_ne_zero hq) hdiv10 hfuel]
        rw [digitsRevFuel, if_neg hn]
        simp [hd]

/-- For every value a C `int` can hold, `write_int` produces the standard
decimal representation. -/
theorem write_int_eq_repr (n : Nat) (h : n < 10 ^ 32) :
    write_int (Int.ofNat n) = Nat.repr n := by
  rcases Nat.eq_zero_or_pos n with h0 | hp
  · subst h0; rfl
  · have hn0 : n ≠ 0 := Nat.pos_iff_ne_zero.mp hp
    have hne : ¬ (Int.ofNat n = 0) := fun hc => hn0 (Int.ofNat_inj.mp hc)
    have hnneg : ¬ (Int.ofNat n < 0) := Int.not_lt.mpr (Int.ofNat_nonneg n)
    rw [write_int, if_neg hne, if_neg hnneg]
    have htn : (Int.ofNat n).toNat = n := rfl
    rw [htn]
    show (digitsRevFuel n 32).reverse.asString = Nat.repr n
    unfold Nat.repr Nat.toDigits
    rw [toDigitsCore_eq_digitsRevFuel 32 n (n + 1) [] hp h (Nat.lt_succ_self n)]
    simp

/-- C3 (counterexample): a line consisting of 128 one-letter words has 128
maximal non-whitespace runs, but `parse_line` with the source's
`MAX_ARGS = 128` returns only 127 tokens, so tokenization does not return
exactly the ordered sequence of maximal runs for every input line. -/
theorem tokenizer_truncation_counterexample :
    (wordsOf line128).length = 128 ∧
    (parse_line line128 MAX_ARGS).length = 127 ∧
    parse_line line128 MAX_ARGS ≠ wordsOf line128 := by
  have h200 : (parse_line line128 200).length = 128 := by decide
  rw [parse_line_eq_take, List.length_take] at h200
  have hw : (wordsOf line128).length = 128 := by omega
  have h127 : (parse_line line128 MAX_ARGS).length = 127 := by decide
  refine ⟨hw, h127, ?_⟩
  intro heq
  rw [heq] at h127
  omega

/-- C3: (amended) for every input line with at most 127 maximal runs of
non-whitespace characters, tokenization returns exactly the ordered
sequence of those runs (splitting on space, tab, carriage-return and
newline, collapsing separators, discarding leading and trailing
whitespace, producing no empty token; beyond 127 runs the sequence is
truncated to the first 127); tokenizing `"  ls   -l  "` yields
`["ls", "-l"]`, and for every empty or whitespace-only line zero tokens
are produced and no dispatch occurs. -/
theorem tokenizer_maximal_runs_amended :
    (∀ l : List Char, (wordsOf l).length ≤ MAX_ARGS - 1 →
      parse_line l MAX_ARGS = wordsOf l)
    ∧ parse_line "  ls   -l  ".data MAX_ARGS = ["ls".data, "-l".data]
    ∧ (∀ l : List Char, l.all isWs = true → parse_line l MAX_ARGS = [])
    ∧ (∀ (env : Env) (cwd : String) (l : List Char)
        (evts : List (Option (List Char))), l.all isWs = true →
        mainRun env cwd (some l :: evts) =
          ⟨Action.prompt :: (mainRun env cwd evts).acts,
           (mainRun env cwd evts).cwd, (mainRun env cwd evts).code⟩) := by
  refine ⟨?_, by decide, ?_, ?_⟩
  · intro l h
    rw [parse_line_eq_take]
    exact List.take_of_length_le h
  · intro l h
    rw [parse_line_eq_take, wordsOf_eq_nil_of_all_ws l h]
    simp
  · intro env cwd l evts h
    have hws : starts_empty_or_ws l = true := h
    simp [mainRun, hws]

/-- C3 (witness for the amended claim): a concrete line with two runs is
tokenized into exactly those runs. -/
theorem tokenizer_maximal_runs_amended_witness :
    parse_line " a b \n".data MAX_ARGS = wordsOf " a b \n".data := by
  have h200 : (parse_line " a b \n".data 200).length = 2 := by decide
  rw [parse_line_eq_take, List.length_take] at h200
  exact tokenizer_maximal_runs_amended.1 " a b \n".data
    (by show (wordsOf " a b \n".data).length ≤ 127; omega)

/-- C7: the tokenizer enforces the `MAX_ARGS = 128` token-count limit: for
every input line at most 128 tokens are produced, and the token sequence
is the leading part (first 127 entries) of the line's full sequence of
whitespace-delimited words, the excess being silently discarded. -/
theorem token_count_limit (l : List Char) :
    (parse_line l MAX_ARGS).length ≤ 128 ∧
    parse_line l MAX_ARGS = (wordsOf l).take 127 := by
  constructor
  · rw [parse_line_eq_take, List.length_take]
    simp only [MAX_ARGS]
    omega
  · exact parse_line_eq_take l MAX_ARGS

/-- C2: each `TerminationOutcome` is mapped to exactly one standard-output
message: a normal exit to the success message with the decimal return
code, a signal death to the signal message with the decimal signal
number, anything else to the unknown-status message — and these three are
the only classifications. -/
theorem report_status_messages :
    (∀ code : Nat, code ≤ 255 →
      report_status (TerminationOutcome.exitedNormally code) =
        "Command executed successfully. Return code: " ++ toString code ++ "\n")
    ∧ (∀ sig : Nat, 0 < sig → sig ≤ 2147483647 →
      report_status (TerminationOutcome.killedBySignal sig) =
        "Command terminated by signal: " ++ toString sig ++ "\n")
    ∧ report_status TerminationOutcome.unknown = "Command finished. (unknown status)\n"
    ∧ (∀ o : TerminationOutcome,
        (∃ c, o = TerminationOutcome.exitedNormally c) ∨
        (∃ s, o = TerminationOutcome.killedBySignal s) ∨
        o = TerminationOutcome.unknown) := by
  refine ⟨?_, ?_, rfl, ?_⟩
  · intro c hc
    have hr : write_int (Int.ofNat c) = Nat.repr c :=
      write_int_eq_repr c (lt_of_le_of_lt hc (by norm_num))
    show "Command executed successfully. Return code: " ++ write_int (Int.ofNat c) ++ "\n" = _
    rw [hr]
    rfl
  · intro s _ hs
    have hr : write_int (Int.ofNat s) = Nat.repr s :=
      write_int_eq_repr s (lt_of_le_of_lt hs (by norm_num))
    show "Command terminated by signal: " ++ write_int (Int.ofNat s) ++ "\n" = _
    rw [hr]
    rfl
  · intro o
    cases o with
    | exitedNormally c => exact Or.inl ⟨c, rfl⟩
    | killedBySignal s => exact Or.inr (Or.inl ⟨s, rfl⟩)
    | unknown => exact Or.inr (Or.inr rfl)

/-- C2 (witness): the messages for a child exiting with code 3 and a child
killed by signal 9 are exactly the documented strings. -/
theorem report_status_messages_witness :
    report_status (TerminationOutcome.exitedNormally 3) =
      "Command executed successfully. Return code: 3\n" ∧
    report_status (TerminationOutcome.killedBySignal 9) =
      "Command terminated by signal: 9\n" :=
  ⟨report_status_messages.1 3 (by norm_num),
   report_status_messages.2.1 9 (by norm_num) (by norm_num)⟩

/-- A candidate check returns `some p` exactly when the path fits in the
buffer, is executable, and `p` is that path. -/
theorem try_candidate_eq_some (env : Env) (dir cmd p : String) :
    try_candidate env dir cmd = some p ↔
      dir.length + 1 + cmd.length + 1 ≤ PATH_BUF ∧
      env.isExec (dir ++ "/" ++ cmd) = true ∧ p = dir ++ "/" ++ cmd := by
  unfold try_candidate build_path
  by_cases hb : dir.length + 1 + cmd.length + 1 > PATH_BUF
  · rw [if_pos hb]
    simp
    omega
  · rw [if_neg hb]
    by_cases he : env.isExec (dir ++ "/" ++ cmd)
    · simp [he, eq_comm]
      omega
    · simp [he]

/-- A candidate check succeeding forward form. -/
theorem try_candidate_some (env : Env) (dir cmd : String)
    (hfit : dir.length + 1 + cmd.length + 1 ≤ PATH_BUF)
    (hex : env.isExec (dir ++ "/" ++ cmd) = true) :
    try_candidate env dir cmd = some (dir ++ "/" ++ cmd) :=
  (try_candidate_eq_some env dir cmd _).mpr ⟨hfit, hex, rfl⟩

/-- A candidate check fails when the path is not executable. -/
theorem try_candidate_none_of_not_exec (env : Env) (dir cmd : String)
    (hex : env.isExec (dir ++ "/" ++ cmd) = false) :
    try_candidate env dir cmd = none := by
  unfold try_candidate build_path
  by_cases hb : dir.length + 1 + cmd.length + 1 > PATH_BUF
  · rw [if_pos hb]
  · rw [if_neg hb]
    simp [hex]

/-- A candidate check fails when the path does not fit in the buffer. -/
theorem try_candidate_none_of_oversized (env : Env) (dir cmd : String)
    (hb : PATH_BUF < dir.length + 1 + cmd.length + 1) :
    try_candidate env dir cmd = none := by
  unfold try_candidate build_path
  rw [if_pos (by omega)]

/-- Resolution when `HOME` is unset reduces to the `/bin` check. -/
theorem find_executable_home_none (env : Env) (cmd : String)
    (h : env.home = none) :
    find_executable env cmd = try_candidate env "/bin" cmd := by
  unfold find_executable
  rw [h]

/-- Resolution when `HOME` is empty reduces to the `/bin` check. -/
theorem find_executable_home_empty (env : Env) (cmd : String)
    (h : env.home = some "") :
    find_executable env cmd = try_candidate env "/bin" cmd := by
  unfold find_executable
  rw [h]
  simp

/-- Resolution when `HOME` is set and non-empty: first the `HOME`
candidate, then the `/bin` candidate. -/
theorem find_executable_home_some (env : Env) (cmd hh : String)
    (h : env.home = some hh) (hne : hh ≠ "") :
    find_executable env cmd =
      (match try_candidate env hh cmd with
       | some p => some p
       | none => try_candidate env "/bin" cmd) := by
  unfold find_executable
  rw [h]
  show (match (if hh ≠ "" then try_candidate env hh cmd else none) with
        | some p => some p
        | none => try_candidate env "/bin" cmd) = _
  rw [if_pos hne]

/-- C1: resolution follows the fixed two-step search order with first
match winning: the `${HOME}` candidate is tried first and wins whenever
`HOME` is set and non-empty and that path is executable (regardless of the
`/bin` candidate); with `HOME` unset or empty only the `/bin` candidate
can be returned; the `/bin` candidate is returned when it is executable
and no `HOME` candidate qualifies; only executable candidates are ever
returned, the result is always one of the two candidates, and `NotFound`
(`none`) is returned when neither qualifies. -/
theorem find_executable_search_order (env : Env) (cmd : String) :
    (∀ hh, env.home = some hh → hh ≠ "" →
      hh.length + 1 + cmd.length + 1 ≤ PATH_BUF →
      env.isExec (hh ++ "/" ++ cmd) = true →
      find_executable env cmd = some (hh ++ "/" ++ cmd))
    ∧ ((env.home = none ∨ env.home = some "") →
      ∀ p, find_executable env cmd = some p → p = "/bin/" ++ cmd)
    ∧ (env.isExec ("/bin/" ++ cmd) = true →
      4 + 1 + cmd.length + 1 ≤ PATH_BUF →
      (∀ hh, env.home = some hh → env.isExec (hh ++ "/" ++ cmd) = false) →
      find_executable env cmd = some ("/bin/" ++ cmd))
    ∧ (∀ p, find_executable env cmd = some p → env.isExec p = true)
    ∧ ((∀ hh, env.home = some hh → env.isExec (hh ++ "/" ++ cmd) = false) →
      env.isExec ("/bin/" ++ cmd) = false →
      find_executable env cmd = none)
    ∧ (∀ p, find_executable env cmd = some p →
      (∃ hh, env.home = some hh ∧ p = hh ++ "/" ++ cmd) ∨ p = "/bin/" ++ cmd) := by
  have hbin : ("/bin" ++ "/" ++ cmd : String) = "/bin/" ++ cmd := rfl
  have hlen4 : ("/bin" : String).length = 4 := rfl
  refine ⟨?_, ?_, ?_, ?_, ?_, ?_⟩
  · intro hh hhome hne hfit hex
    rw [find_executable_home_some env cmd hh hhome hne,
        try_candidate_some env hh cmd hfit hex]
  · intro hcase p hp
    have hbineq : find_executable env cmd = try_candidate env "/bin" cmd := by
      rcases hcase with h | h
      · exact find_executable_home_none env cmd h
      · exact find_executable_home_empty env cmd h
    rw [hbineq] at hp
    have h2 := (try_candidate_eq_some env "/bin" cmd p).mp hp
    rw [← hbin]
    exact h2.2.2
  · intro hex hfit hnone
    have hfit' : ("/bin" : String).length + 1 + cmd.length + 1 ≤ PATH_BUF := by
      rw [hlen4]; exact hfit
    have hex' : env.isExec ("/bin" ++ "/" ++ cmd) = true := by rw [hbin]; exact hex
    have hb := try_candidate_some env "/bin" cmd hfit' hex'
    rcases henv : env.home with _ | hh
    · rw [find_executable_home_none env cmd henv, hb, hbin]
    · by_cases hhe : hh = ""
      · subst hhe
        rw [find_executable_home_empty env cmd henv, hb, hbin]
      · rw [find_executable_home_some env cmd hh henv hhe,
            try_candidate_none_of_not_exec env hh cmd (hnone hh henv)]
        show try_candidate env "/bin" cmd = some ("/bin/" ++ cmd)
        rw [hb, hbin]
  · intro p hp
    rcases henv : env.home with _ | hh
    · rw [find_executable_home_none env cmd henv] at hp
      obtain ⟨-, hex, hpe⟩ := (try_candidate_eq_some env "/bin" cmd p).mp hp
      rw [hpe]; exact hex
    · by_cases hhe : hh = ""
      · subst hhe
        rw [find_executable_home_empty env cmd henv] at hp
        obtain ⟨-, hex, hpe⟩ := (try_candidate_eq_some env "/bin" cmd p).mp hp
        rw [hpe]; exact hex
      · rw [find_executable_home_some env cmd hh henv hhe] at hp
        split at hp
        · rename_i q htc
          obtain ⟨-, hex, hqe⟩ := (try_candidate_eq_some env hh cmd q).mp htc
          have hqp : q = p := Option.some.inj hp
          rw [← hqp, hqe]; exact hex
        · obtain ⟨-, hex, hpe⟩ := (try_candidate_eq_some env "/bin" cmd p).mp hp
          rw [hpe]; exact hex
  · intro hnone hbex
    have hbex' : env.isExec ("/bin" ++ "/" ++ cmd) = false := by rw [hbin]; exact hbex
    have hb := try_candidate_none_of_not_exec env "/bin" cmd hbex'
    rcases henv : env.home with _ | hh
    · rw [find_executable_home_none env cmd henv, hb]
    · by_cases hhe : hh = ""
      · subst hhe
        rw [find_executable_home_empty env cmd henv, hb]
      · rw [find_executable_home_some env cmd hh henv hhe,
            try_candidate_none_of_not_exec env hh cmd (hnone hh henv)]
        exact hb
  · intro p hp
    rcases henv : env.home with _ | hh
    · rw [find_executable_home_none env cmd henv] at hp
      obtain ⟨-, -, hpe⟩ := (try_candidate_eq_some env "/bin" cmd p).mp hp
      rw [← hbin]
      exact Or.inr hpe
    · by_cases hhe : hh = ""
      · subst hhe
        rw [find_executable_home_empty env cmd henv] at hp
        obtain ⟨-, -, hpe⟩ := (try_candidate_eq_some env "/bin" cmd p).mp hp
        rw [← hbin]
        exact Or.inr hpe
      · rw [find_executable_home_some env cmd hh henv hhe] at hp
        split at hp
        · rename_i q htc
          obtain ⟨-, -, hqe⟩ := (try_candidate_eq_some env hh cmd q).mp htc
          have hqp : q = p := Option.some.inj hp
          exact Or.inl ⟨hh, rfl, by rw [← hqp, hqe]⟩
        · obtain ⟨-, -, hpe⟩ := (try_candidate_eq_some env "/bin" cmd p).mp hp
          rw [← hbin]
          exact Or.inr hpe

/-- C1 (witness): with `HOME=/h` and every path executable, resolving
`ls` yields the `HOME` candidate `/h/ls`. -/
theorem find_executable_search_order_witness :
    find_executable envSlashH "ls" = some "/h/ls" :=
  (find_executable_search_order envSlashH "ls").1 "/h" rfl (by decide)
    (by decide) rfl

/-- C9: (amended) whenever `dir + "/" + name` plus the terminating NUL
exceeds the 4096-byte path buffer for both candidates — which for the
`/bin` candidate means a name longer than 4090 characters, and for the
`${HOME}` candidate a name longer than `4094 - |HOME|` characters —
resolution skips each oversized candidate without error, returns
`NotFound`, and the dispatcher reports the unknown-command message
regardless of the filesystem's contents. -/
theorem oversized_candidates_not_found (env : Env) (cmd : String)
    (hhome : ∀ hh, env.home = some hh → hh ≠ "" →
      PATH_BUF < hh.length + 1 + cmd.length + 1)
    (hbin : PATH_BUF < 4 + 1 + cmd.length + 1) :
    find_executable env cmd = none ∧
    ∀ args, execute_external env (cmd :: args) =
      [Action.err ("[" ++ cmd ++ "]: Unknown Command\n")] := by
  have hlen4 : ("/bin" : String).length = 4 := rfl
  have hbin' : try_candidate env "/bin" cmd = none :=
    try_candidate_none_of_oversized env "/bin" cmd (by omega)
  have hfind : find_executable env cmd = none := by
    rcases henv : env.home with _ | hh
    · rw [find_executable_home_none env cmd henv, hbin']
    · by_cases hhe : hh = ""
      · subst hhe
        rw [find_executable_home_empty env cmd henv, hbin']
      · rw [find_executable_home_some env cmd hh henv hhe,
            try_candidate_none_of_oversized env hh cmd (hhome hh henv hhe)]
        exact hbin'
  refine ⟨hfind, fun args => ?_⟩
  simp [execute_external, hfind, print_unknown]

/-- C9 (witness for the amended claim): with `HOME` unset, a 4091-character
name overflows the `/bin` candidate and resolution returns `NotFound`. -/
theorem oversized_candidates_not_found_witness :
    find_executable envNoHome bigCmd = none :=
  (oversized_candidates_not_found envNoHome bigCmd
    (by intro hh h hne; simp [envNoHome] at h)
    (by
      have hlen : bigCmd.length = 4091 := by
        show (List.replicate 4091 'a').length = 4091
        rw [List.length_replicate]
      rw [PATH_BUF, hlen]
      omega)).1

/-- C9 (counterexample): a name longer than 4090 characters does not
always make both candidates oversized: with `HOME="/"` and a filesystem on
which everything is executable, the 4091-character name still fits in the
`${HOME}` candidate and resolution succeeds instead of returning
`NotFound`. -/
theorem path_buffer_counterexample :
    4090 < bigCmd.length ∧ find_executable envSlashHome bigCmd ≠ none := by
  have hlen : bigCmd.length = 4091 := by
    show (List.replicate 4091 'a').length = 4091
    rw [List.length_replicate]
  constructor
  · omega
  · have h1 : ("/" : String).length = 1 := rfl
    have hfit : ("/" : String).length + 1 + bigCmd.length + 1 ≤ PATH_BUF := by
      rw [PATH_BUF, h1, hlen]
      omega
    have htc := try_candidate_some envSlashHome "/" bigCmd hfit rfl
    rw [find_executable_home_some envSlashHome bigCmd "/" rfl (by decide), htc]
    simp

/-- A line that tokenizes to a non-empty argument vector is not
whitespace-only. -/
theorem ws_false_of_tokens_ne_nil (line : List Char)
    (h : tokensOf line ≠ []) : starts_empty_or_ws line = false := by
  apply not_all_ws_of_words_ne_nil
  intro hw
  apply h
  rw [tokensOf, parse_line_eq_take, hw]
  simp

/-- C4: when resolution returns `NotFound` the dispatcher writes exactly
`"[name]: Unknown Command"` followed by a newline to standard error, and
no child process is created. -/
theorem unknown_command_no_child (env : Env) (cmd : String) (args : List String)
    (h : find_executable env cmd = none) :
    execute_external env (cmd :: args) =
      [Action.err ("[" ++ cmd ++ "]: Unknown Command\n")] ∧
    ∀ p av, Action.spawned p av ∉ execute_external env (cmd :: args) := by
  have he : execute_external env (cmd :: args) = [Action.err (print_unknown cmd)] := by
    simp [execute_external, h]
  constructor
  · rw [he]; rfl
  · intro p av
    rw [he]
    simp [print_unknown]

/-- C4 (witness): the unresolvable command `frobnicate` produces exactly
the documented diagnostic. -/
theorem unknown_command_no_child_witness :
    execute_external envNoHome ["frobnicate"] =
      [Action.err "[frobnicate]: Unknown Command\n"] :=
  (unknown_command_no_child envNoHome "frobnicate" [] rfl).1

/-- C5: an input cycle whose first token is `exit` moves the interpreter
to the terminal state without processing trailing tokens or any later
input, and the interpreter's process exit code is 0 on every run
(in particular on shutdown via `exit` or end-of-input). -/
theorem exit_terminates_loop :
    (∀ (env : Env) (cwd : String) (line : List Char) (args : List String)
      (evts : List (Option (List Char))),
      tokensOf line = "exit" :: args →
      mainRun env cwd (some line :: evts) = ⟨[Action.prompt], cwd, 0⟩)
    ∧ ∀ (env : Env) (cwd : String) (evts : List (Option (List Char))),
      (mainRun env cwd evts).code = 0 := by
  constructor
  · intro env cwd line args evts htok
    have hws : starts_empty_or_ws line = false :=
      ws_false_of_tokens_ne_nil line (by rw [htok]; simp)
    simp [mainRun, hws, htok]
  · intro env cwd evts
    induction evts generalizing cwd with
    | nil => rfl
    | cons e rest ih =>
      cases e with
      | none => rfl
      | some line =>
        by_cases hws : starts_empty_or_ws line
        · simp [mainRun, hws, ih]
        · cases htok : tokensOf line with
          | nil => simp [mainRun, hws, htok, ih]
          | cons cmd args =>
            by_cases hex : cmd = "exit"
            · simp [mainRun, hws, htok, hex]
            · by_cases hcd : cmd = "cd"
              · simp [mainRun, hws, htok, hex, hcd, ih]
              · simp [mainRun, hws, htok, hex, hcd, ih]

/-- C5 (witness): `exit now` terminates the loop at once with exit code
0. -/
theorem exit_terminates_loop_witness :
    mainRun envNoHome "/w" [some "exit now\n".data] = ⟨[Action.prompt], "/w", 0⟩ :=
  exit_terminates_loop.1 envNoHome "/w" "exit now\n".data ["now"] [] (by decide)

/-- C6: for a `cd` cycle the target is the second token when present and
`HOME` otherwise; with neither available the shell emits the
HOME-not-set diagnostic and keeps its working directory; a failing
`chdir` is diagnosed via `perror` and keeps the working directory; a
successful `chdir` moves to the target; and after any `cd` the loop keeps
processing later input rather than terminating. -/
theorem builtin_cd_spec (env : Env) (cwd : String) :
    (∀ hh, env.home = some hh →
      builtin_cd env cwd ["cd"] = builtin_cd env cwd ["cd", hh])
    ∧ (env.home = none →
      builtin_cd env cwd ["cd"] = ⟨[Action.err "cd: HOME not set\n"], cwd⟩)
    ∧ (∀ t rs newCwd, env.chdirRes t = some newCwd →
      builtin_cd env cwd ("cd" :: t :: rs) = ⟨[], newCwd⟩)
    ∧ (∀ t rs, env.chdirRes t = none →
      builtin_cd env cwd ("cd" :: t :: rs) = ⟨[Action.perror "chdir"], cwd⟩)
    ∧ (∀ (line : List Char) (args : List String)
        (evts : List (Option (List Char))),
      tokensOf line = "cd" :: args →
      mainRun env cwd (some line :: evts) =
        ⟨Action.prompt :: ((builtin_cd env cwd ("cd" :: args)).acts ++
            (mainRun env (builtin_cd env cwd ("cd" :: args)).cwd evts).acts),
         (mainRun env (builtin_cd env cwd ("cd" :: args)).cwd evts).cwd,
         (mainRun env (builtin_cd env cwd ("cd" :: args)).cwd evts).code⟩) := by
  refine ⟨?_, ?_, ?_, ?_, ?_⟩
  · intro hh h
    simp [builtin_cd, h]
  · intro h
    simp [builtin_cd, h]
  · intro t rs newCwd h
    simp [builtin_cd, h]
  · intro t rs h
    simp [builtin_cd, h]
  · intro line args evts htok
    have hws : starts_empty_or_ws line = false :=
      ws_false_of_tokens_ne_nil line (by rw [htok]; simp)
    simp [mainRun, hws, htok]

/-- C6 (witness): `cd /tmp` in a directory-changing environment moves the
shell to `/tmp`. -/
theorem builtin_cd_spec_witness :
    builtin_cd envTmpHome "/w" ["cd", "/tmp"] = ⟨[], "/tmp"⟩ :=
  (builtin_cd_spec envTmpHome "/w").2.2.1 "/tmp" [] "/tmp" rfl

/-- C10: with `HOME` set to the empty string, `cd` with no argument does
not emit the HOME-not-set diagnostic: it attempts `chdir("")`, which
fails, yielding the `chdir` failure diagnostic and an unchanged working
directory — while the resolver treats the same empty `HOME` as unset and
consults only the `/bin` candidate. -/
theorem cd_empty_home (env : Env) (cwd : String) (h : env.home = some "") :
    builtin_cd env cwd ["cd"] = ⟨[Action.perror "chdir"], cwd⟩ ∧
    (∀ a ∈ (builtin_cd env cwd ["cd"]).acts, a ≠ Action.err "cd: HOME not set\n") ∧
    ∀ cmd, find_executable env cmd = try_candidate env "/bin" cmd := by
  have hcd : builtin_cd env cwd ["cd"] = ⟨[Action.perror "chdir"], cwd⟩ := by
    simp [builtin_cd, h, env.chdirEmptyFails]
  refine ⟨hcd, ?_, fun cmd => find_executable_home_empty env cmd h⟩
  rw [hcd]
  intro a ha
  simp only [List.mem_singleton] at ha
  subst ha
  simp

/-- C10 (witness): the concrete empty-`HOME` environment shows the
`chdir` diagnostic instead of the HOME-not-set one. -/
theorem cd_empty_home_witness :
    builtin_cd envEmptyHome "/w" ["cd"] = ⟨[Action.perror "chdir"], "/w"⟩ :=
  (cd_empty_home envEmptyHome "/w" rfl).1

/-- C8: a failed read is treated exactly like end-of-input: `read_line`
returns the failure marker for end-of-file at the start of a line, for a
read error, for a failed initial `malloc` and for a failed `realloc`
while growing the buffer, and on any failed read the interpreter prints
the trailing newline on standard output and stops with exit code 0,
emitting no diagnostic. -/
theorem read_failure_like_eof :
    (∀ (env : Env) (cwd : String) (evts : List (Option (List Char))),
      mainRun env cwd (none :: evts) = ⟨[Action.prompt, Action.out "\n"], cwd, 0⟩)
    ∧ (∀ (cap : Nat) (alloc : List Bool) (s : List ByteEvent), 0 < cap →
      read_line cap alloc (ByteEvent.eof :: s) = ⟨none, cap, alloc, s⟩)
    ∧ (∀ (cap : Nat) (alloc : List Bool) (s : List ByteEvent), 0 < cap →
      read_line cap alloc (ByteEvent.err :: s) = ⟨none, cap, alloc, s⟩)
    ∧ (∀ (alloc : List Bool) (s : List ByteEvent),
      read_line 0 (false :: alloc) s = ⟨none, 0, alloc, s⟩)
    ∧ (∀ (alloc : List Bool) (s : List ByteEvent),
      read_line INITIAL_BUF (false :: alloc)
        (List.replicate 255 (ByteEvent.byte 'a') ++ ByteEvent.byte 'b' :: s) =
        ⟨none, INITIAL_BUF, alloc, s⟩) := by
  refine ⟨fun env cwd evts => rfl, ?_, ?_, fun alloc s => rfl, fun alloc s => rfl⟩
  · intro cap alloc s hc
    rw [read_line, if_neg (Nat.pos_iff_ne_zero.mp hc)]
    simp [readLoop]
  · intro cap alloc s hc
    rw [read_line, if_neg (Nat.pos_iff_ne_zero.mp hc)]
    rfl

/-- C8 (witness): a read error on a fresh 256-byte buffer fails the read
without consuming anything else. -/
theorem read_failure_like_eof_witness :
    read_line INITIAL_BUF [] [ByteEvent.err] = ⟨none, INITIAL_BUF, [], []⟩ :=
  read_failure_like_eof.2.2.1 INITIAL_BUF [] [] (by decide)

end MiniBash
